import Mathlib

/-!
Shallow embedding of the order-lifecycle / inventory engine of the
`SiparisYonetimSistemi` repository (Python), for checking the natural-language
specification against the code.

Conventions of the embedding:
* Python `int` becomes `Int`; Python `float` prices and costs become `ℚ`
  (the float literal `0.9` is modelled as the rational `9/10`).
* Mutable `Product.stock_quantity` is shared through aliasing in Python (the
  registry, order lines and requests all reference the same `Product` object);
  we model the mutable stock as a map `Stocks : String → Int` keyed by
  `product_id`, and `Product` keeps only the immutable attributes used by the
  engine (`product_id`, `price`).
* A raised Python exception (`ValueError`) is modelled by the `PyResult.raised`
  constructor; operations return the post-state alongside it, because in Python
  mutations performed before the raise persist on the shared objects.
* `random.choices` / `random.randint` are modelled by an injected seed stream
  `g : ℕ → ℕ`; `randint a b` draws `a + g i % (b - a + 1)`.
* `datetime` values are modelled as `Int` (hours); messages built with
  `strftime` render the model time with `toString`, and the Turkish message
  strings are transliterated to ASCII (their content is not claim-relevant).
-/

/-- Outcome of a Python call that can raise `ValueError`. -/
inductive PyResult (α : Type) where
  | ok (a : α)
  | raised
deriving DecidableEq, Repr

/-- `models/product.py`, class `Product`: immutable attributes.  The mutable
`stock_quantity` lives in `Stocks`, keyed by `product_id` (see module header). -/
structure Product where
  productId : String
  price : ℚ
deriving DecidableEq, Repr

/-- Mutable stock state: `product_id ↦ stock_quantity`. -/
abbrev Stocks := String → Int

/-- Point update of the stock map. -/
def updateMap (s : Stocks) (pid : String) (v : Int) : Stocks :=
  fun i => if i = pid then v else s i

/-- `Product.decrease_stock`: if `stock_quantity >= quantity` subtract and
return `True`, else return `False` with no mutation.  The stock value is passed
explicitly (see module header). -/
def Product.decrease_stock (stock quantity : Int) : Bool × Int :=
  if stock ≥ quantity then (true, stock - quantity) else (false, stock)

/-- `Product.increase_stock`: raises `ValueError` when `quantity < 0`,
otherwise adds `quantity` to the stock. -/
def Product.increase_stock (stock quantity : Int) : PyResult Int :=
  if quantity < 0 then .raised else .ok (stock + quantity)

/-- `models/order.py`, enum `OrderStatus`. -/
inductive OrderStatus where
  | created
  | processing
  | shipped
  | delivered
  | cancelled
deriving DecidableEq, Repr

/-- The enum `value` strings (transliterated to ASCII). -/
def OrderStatus.value : OrderStatus → String
  | .created => "Olusturuldu"
  | .processing => "Hazirlaniyor"
  | .shipped => "Yola Cikti"
  | .delivered => "Teslim Edildi"
  | .cancelled => "Iptal Edildi"

/-- `models/order.py`, class `OrderItem`: product reference (kept as its id and
frozen unit price) and quantity.  `item_price` freezes `product.price` at
construction time. -/
structure OrderItem where
  productId : String
  quantity : Int
  itemPrice : ℚ
deriving DecidableEq, Repr

/-- `OrderItem.get_subtotal`. -/
def OrderItem.get_subtotal (it : OrderItem) : ℚ :=
  it.itemPrice * (it.quantity : ℚ)

/-- `models/shipping.py`: the three concrete strategies, as a closed set of
tags (the classes are stateless). -/
inductive ShippingMethod where
  | fast
  | economic
  | drone
deriving DecidableEq, Repr

/-- `models/order.py`, class `Order`.  The random `order_id`, the customer
reference and `create_date` are not modelled: no embedded claim depends on
them (the customer is kept as an opaque id). -/
structure Order where
  customerId : String
  items : List OrderItem
  status : OrderStatus
  shippingMethod : Option ShippingMethod
  shippingCost : ℚ
  deliveryDate : Option Int
  trackingNumber : Option String
  notes : Option String
deriving DecidableEq, Repr

/-- `Order.get_subtotal`: sum of line subtotals. -/
def Order.get_subtotal (o : Order) : ℚ :=
  (o.items.map (fun it => it.get_subtotal)).sum

/-- `Order.get_total`: subtotal plus the stored shipping cost. -/
def Order.get_total (o : Order) : ℚ :=
  o.get_subtotal + o.shippingCost

/-- `sum(item.quantity for item in order.items)`, as used by the shipping
cost functions and the selector. -/
def Order.item_count (o : Order) : Int :=
  (o.items.map (fun it => it.quantity)).sum

/-- `FastShipping.calculate_cost` / `EconomicShipping.calculate_cost` /
`DroneShipping.calculate_cost` (floats as rationals). -/
def ShippingMethod.calculate_cost : ShippingMethod → Order → ℚ
  | .fast, o =>
    let base_cost : ℚ := 50
    let per_item_cost : ℚ := 5
    let total_cost := base_cost + per_item_cost * (o.item_count : ℚ)
    if o.get_subtotal > 1000 then total_cost * (9 / 10) else total_cost
  | .economic, o =>
    let base_cost : ℚ := 20
    if o.get_subtotal > 500 then 0 else base_cost
  | .drone, o =>
    let base_cost : ℚ := 100
    let per_item_cost : ℚ := 10
    base_cost + per_item_cost * (o.item_count : ℚ)

/-- `random.randint(a, b)` drawn from the seed stream at index `i`. -/
def randint (g : ℕ → ℕ) (i a b : ℕ) : ℕ :=
  a + g i % (b - a + 1)

/-- `string.ascii_uppercase`. -/
def string_ascii_uppercase : List Char :=
  "ABCDEFGHIJKLMNOPQRSTUVWXYZ".toList

/-- `string.digits`. -/
def string_digits : List Char :=
  "0123456789".toList

/-- `ShippingMethod.generate_tracking_number`: 2 random uppercase letters
followed by 8 random digits (`random.choices` indexes drawn from `g`). -/
def ShippingMethod.generate_tracking_number (g : ℕ → ℕ) : String :=
  let letters := (List.range 2).map (fun i => string_ascii_uppercase.getD (g i % 26) 'A')
  let numbers := (List.range 8).map (fun i => string_digits.getD (g (2 + i) % 10) '0')
  String.mk (letters ++ numbers)

/-- `estimate_delivery_time` of the three strategies; `now` is the model time
in hours, the random day/hour counts are drawn from `g` at indices 10, 11. -/
def ShippingMethod.estimate_delivery_time (m : ShippingMethod) (now : Int) (g : ℕ → ℕ) : Int :=
  match m with
  | .fast => now + 24 * (randint g 10 1 2 : Int)
  | .economic => now + 24 * (randint g 10 3 5 : Int)
  | .drone =>
    let days := randint g 10 0 1
    if days = 0 then now + (randint g 11 1 6 : Int)
    else now + 24 * (days : Int)

/-- `ShippingFactory.get_optimal_shipping_method`. -/
def ShippingFactory.get_optimal_shipping_method (o : Order) : ShippingMethod :=
  let total_quantity := o.item_count
  let subtotal := o.get_subtotal
  if subtotal > 2000 then .drone
  else if subtotal > 1000 ∨ total_quantity ≤ 2 then .fast
  else .economic

/-- Python truthiness of an optional string (`None` and `""` are falsy). -/
def pyFalsyStr : Option String → Bool
  | none => true
  | some s => s = ""

/-- The `Order.shipping_method` setter: stores the method and, when it is
truthy, recomputes `shipping_cost` from the current lines. -/
def Order.set_shipping_method (o : Order) (v : Option ShippingMethod) : Order :=
  let o' := { o with shippingMethod := v }
  match v with
  | some m => { o' with shippingCost := m.calculate_cost o' }
  | none => o'

/-- Result of `Order.add_item`: the returned bool (or a raise), plus the
post-call order and stock state (mutations before a raise persist). -/
structure AddResult where
  res : PyResult Bool
  order : Order
  stocks : Stocks

/-- `Order.add_item`: raises on non-positive quantity; then attempts
`product.decrease_stock(quantity)`; on success, if an item with the same
product id is already present it returns `True` without touching the item
list, otherwise it appends a new `OrderItem`. -/
def Order.add_item (o : Order) (p : Product) (quantity : Int) (s : Stocks) : AddResult :=
  if quantity ≤ 0 then ⟨.raised, o, s⟩
  else
    let d := Product.decrease_stock (s p.productId) quantity
    if d.1 = false then ⟨.ok false, o, s⟩
    else
      let s' := updateMap s p.productId d.2
      if o.items.any (fun it => it.productId = p.productId) then ⟨.ok true, o, s'⟩
      else ⟨.ok true, { o with items := o.items ++ [⟨p.productId, quantity, p.price⟩] }, s'⟩

/-- Helper for `Order.remove_item`: scan the item list for the first item with
the given product id; on a match, credit its quantity back to the stock and
drop it from the list. -/
def remove_first (items : List OrderItem) (pid : String) (s : Stocks) :
    PyResult Bool × List OrderItem × Stocks :=
  match items with
  | [] => (.ok false, [], s)
  | it :: rest =>
    if it.productId = pid then
      match Product.increase_stock (s it.productId) it.quantity with
      | .raised => (.raised, it :: rest, s)
      | .ok v => (.ok true, rest, updateMap s it.productId v)
    else
      let r := remove_first rest pid s
      (r.1, it :: r.2.1, r.2.2)

/-- Result of `Order.remove_item`. -/
structure RemoveResult where
  res : PyResult Bool
  order : Order
  stocks : Stocks

/-- `Order.remove_item`: remove the first item with the given product id and
restore its reserved quantity via `increase_stock`; `False` when absent. -/
def Order.remove_item (o : Order) (pid : String) (s : Stocks) : RemoveResult :=
  let r := remove_first o.items pid s
  ⟨r.1, { o with items := r.2.1 }, r.2.2⟩

/-- The rollback loop of `OrderFactory.create_order`:
`for item in order.items: item.product.increase_stock(item.quantity)`. -/
def restore_items (items : List OrderItem) (s : Stocks) : PyResult Unit × Stocks :=
  match items with
  | [] => (.ok (), s)
  | it :: rest =>
    match Product.increase_stock (s it.productId) it.quantity with
    | .raised => (.raised, s)
    | .ok v => restore_items rest (updateMap s it.productId v)

/-- Result of the reservation loop of `create_order` (and of `create_order`
itself, minus the notification): `ok none` is the Python `return None`. -/
structure LoopResult where
  res : PyResult (Option Order)
  stocks : Stocks

/-- The reservation loop of `OrderFactory.create_order`: for each requested
`(product, quantity)` call `order.add_item`; on a `False` return, restore the
stock of every line already appended and return `None`; a raise propagates. -/
def create_order_loop (o : Order) (reqs : List (Product × Int)) (s : Stocks) : LoopResult :=
  match reqs with
  | [] => ⟨.ok (some o), s⟩
  | (p, q) :: rest =>
    let a := o.add_item p q s
    match a.res with
    | .raised => ⟨.raised, a.stocks⟩
    | .ok false =>
      let r := restore_items a.order.items a.stocks
      match r.1 with
      | .raised => ⟨.raised, r.2⟩
      | .ok _ => ⟨.ok none, r.2⟩
    | .ok true => create_order_loop a.order rest a.stocks

/-- A fresh `Order(customer)`: `CREATED` status, empty line list, shipping
cost `0`, no shipping method / delivery date / tracking number / notes. -/
def newOrder (customerId : String) : Order :=
  { customerId := customerId
    items := []
    status := .created
    shippingMethod := none
    shippingCost := 0
    deliveryDate := none
    trackingNumber := none
    notes := none }

/-- Result of `OrderFactory.create_order`: the returned order (`ok none` is
Python `None`, `raised` an escaping `ValueError`), the stock post-state and
the dispatched notification messages. -/
structure CreateResult where
  res : PyResult (Option Order)
  stocks : Stocks
  messages : List String

/-- The success tail of `OrderFactory.create_order`: set the notes when they
are truthy, then resolve the shipping method — the explicit one when given,
else the selector's choice when `select_shipping` is set. -/
def finalize_order (o1 : Order) (select_shipping : Bool)
    (shipping_method : Option ShippingMethod) (notes : Option String) : Order :=
  let o2 := if pyFalsyStr notes then o1 else { o1 with notes := notes }
  match shipping_method with
  | some m => o2.set_shipping_method (some m)
  | none =>
    if select_shipping then
      o2.set_shipping_method (some (ShippingFactory.get_optimal_shipping_method o2))
    else o2

/-- `OrderFactory.create_order`: instantiate a fresh order, run the
reservation loop, and on success finalize the order (notes, shipping) and
dispatch the creation notification.  The append to the customer history is
outside the embedded state. -/
def OrderFactory.create_order (customerId : String) (reqs : List (Product × Int))
    (select_shipping : Bool) (shipping_method : Option ShippingMethod)
    (notes : Option String) (s : Stocks) : CreateResult :=
  let L := create_order_loop (newOrder customerId) reqs s
  match L.res with
  | .raised => ⟨.raised, L.stocks, []⟩
  | .ok none => ⟨.ok none, L.stocks, []⟩
  | .ok (some o1) =>
    ⟨.ok (some (finalize_order o1 select_shipping shipping_method notes)),
      L.stocks, ["Siparisiniz basariyla olusturuldu!"]⟩

/-- The argument of `OrderFactory.update_order_status`: either an actual
`OrderStatus` member or any other Python value (rejected by the
`isinstance` check). -/
inductive StatusValue where
  | valid (s : OrderStatus)
  | notAStatus
deriving DecidableEq, Repr

/-- Result of `OrderFactory.update_order_status`: the returned bool, the
post-call order, and the dispatched notification messages. -/
structure UpdateResult where
  ok : Bool
  order : Order
  messages : List String
deriving DecidableEq, Repr

/-- `OrderFactory.update_order_status`: reject a non-`OrderStatus` value; set
the status; on `SHIPPED`, generate a tracking number when none is assigned
(Python truthiness) and a shipping method is present, and compute the
delivery estimate when a shipping method is present; then dispatch one
notification describing the change (`strftime` rendered via `toString`). -/
def OrderFactory.update_order_status (o : Order) (nv : StatusValue)
    (now : Int) (g : ℕ → ℕ) : UpdateResult :=
  match nv with
  | .notAStatus => ⟨false, o, []⟩
  | .valid new_status =>
    let old_status := o.status
    let o1 : Order := { o with status := new_status }
    let o2 :=
      if new_status = .shipped then
        let o1' :=
          if pyFalsyStr o1.trackingNumber ∧ o1.shippingMethod.isSome then
            { o1 with trackingNumber := some (ShippingMethod.generate_tracking_number g) }
          else o1
        match o1'.shippingMethod with
        | some m => { o1' with deliveryDate := some (m.estimate_delivery_time now g) }
        | none => o1'
      else o1
    let message := "Siparisinizin durumu " ++ old_status.value ++ " -> "
      ++ new_status.value ++ " olarak guncellendi."
    let message :=
      if new_status = .shipped ∧ ¬ pyFalsyStr o2.trackingNumber then
        message ++ " Takip numaraniz: " ++ o2.trackingNumber.getD ""
      else message
    let message :=
      if new_status = .shipped ∧ o2.deliveryDate.isSome then
        message ++ " Tahmini teslimat: " ++ toString (o2.deliveryDate.getD 0)
      else message
    ⟨true, o2, [message]⟩

/-- `services/inventory_manager.py`: the registry state, `product_id ↦ stock`
for every registered product (a Python dict keeps keys unique; the immutable
product attributes are irrelevant to the stock operations). -/
abbrev Inventory := List (String × Int)

/-- Dict lookup `self.__products.get(product_id)`, restricted to the stock. -/
def inv_get (inv : Inventory) (pid : String) : Option Int :=
  match inv with
  | [] => none
  | e :: rest => if e.1 = pid then some e.2 else inv_get rest pid

/-- Write back the mutated stock of a registered product (in-place mutation
of the dict entry's object in Python). -/
def inv_set (inv : Inventory) (pid : String) (v : Int) : Inventory :=
  match inv with
  | [] => []
  | e :: rest => if e.1 = pid then (pid, v) :: rest else e :: inv_set rest pid v

/-- `InventoryManager.update_stock`: unknown id fails; a negative delta
larger than the stock fails with no mutation; otherwise the stock is changed
through `Product.decrease_stock` / `Product.increase_stock`. -/
def InventoryManager.update_stock (inv : Inventory) (pid : String) (delta : Int) :
    PyResult Bool × Inventory :=
  match inv_get inv pid with
  | none => (.ok false, inv)
  | some st =>
    if delta < 0 ∧ st < |delta| then (.ok false, inv)
    else if delta < 0 then
      (.ok true, inv_set inv pid (Product.decrease_stock st |delta|).2)
    else
      match Product.increase_stock st delta with
      | .raised => (.raised, inv)
      | .ok v => (.ok true, inv_set inv pid v)

/-- Fold a sequence of `update_stock` calls over the registry. -/
def apply_stock_ops (inv : Inventory) (ops : List (String × Int)) : Inventory :=
  ops.foldl (fun acc op => (InventoryManager.update_stock acc op.1 op.2).2) inv

/-- `InventoryManager.check_stock`. -/
def InventoryManager.check_stock (inv : Inventory) (pid : String) (quantity : Int) : Bool :=
  match inv_get inv pid with
  | none => false
  | some st => st ≥ quantity

/-! ## Spec-side comparison definitions and statement helpers -/

/-- Spec formula (§4.2): Fast cost is `(50 + 5×item_count)`, `×0.9` when
`subtotal > 1000`. -/
def spec_fast_cost (item_count : Int) (subtotal : ℚ) : ℚ :=
  if subtotal > 1000 then (50 + 5 * (item_count : ℚ)) * (9 / 10)
  else 50 + 5 * (item_count : ℚ)

/-- Spec formula (§4.2): Economic cost is `0` when `subtotal > 500`, else `20`. -/
def spec_economic_cost (subtotal : ℚ) : ℚ :=
  if subtotal > 500 then 0 else 20

/-- Spec formula (§4.2): Drone cost is `100 + 10×item_count`. -/
def spec_drone_cost (item_count : Int) : ℚ :=
  100 + 10 * (item_count : ℚ)

/-- Spec selector (§4.2): Drone when `subtotal > 2000`; else Fast when
`subtotal > 1000` or `item_count ≤ 2`; else Economic. -/
def spec_selector (subtotal : ℚ) (item_count : Int) : ShippingMethod :=
  if subtotal > 2000 then .drone
  else if subtotal > 1000 ∨ item_count ≤ 2 then .fast
  else .economic

/-- The tracking-code pattern `[A-Z]{2}[0-9]{8}` of the spec. -/
def tracking_format (t : String) : Prop :=
  t.length = 10 ∧ (∀ c ∈ t.toList.take 2, c.isUpper) ∧ (∀ c ∈ t.toList.drop 2, c.isDigit)

instance (t : String) : Decidable (tracking_format t) := by
  unfold tracking_format; infer_instance

/-- The order returned by `create_order` (`none` on a `None` return or an
escaping exception). -/
def created_order (r : CreateResult) : Option Order :=
  match r.res with
  | .ok o? => o?
  | .raised => none

/-- Total quantity held by the order lines carrying a given product id. -/
def reserved_for (items : List OrderItem) (pid : String) : Int :=
  ((items.filter (fun it => it.productId = pid)).map (fun it => it.quantity)).sum

/-- Total quantity requested for a given product id. -/
def requested_for (reqs : List (Product × Int)) (pid : String) : Int :=
  ((reqs.filter (fun pq => pq.1.productId = pid)).map (fun pq => pq.2)).sum

/-- The order line a successful reservation of `(product, quantity)` appends. -/
def mkOrderItem (pq : Product × Int) : OrderItem :=
  ⟨pq.1.productId, pq.2, pq.1.price⟩

/-! ## Concrete fixtures used by counterexamples and witnesses -/

/-- Catalog item `A`, unit price 100. -/
def pA : Product := ⟨"A", 100⟩

/-- Catalog item `B`, unit price 50. -/
def pB : Product := ⟨"B", 50⟩

/-- Stock state with 5 units of `A` and none of anything else. -/
def exStocks : Stocks := fun pid => if pid = "A" then 5 else 0

/-- Order with one line of 4 units at price 300: `item_count = 4`,
`subtotal = 1200`. -/
def fast_example : Order :=
  { newOrder "c" with items := [⟨"X", 4, 300⟩] }

/-- Order realizing `subtotal = 2500`, `item_count = 3`. -/
def sel_example_drone : Order :=
  { newOrder "c" with items := [⟨"X", 1, 2000⟩, ⟨"Y", 2, 250⟩] }

/-- Order realizing `subtotal = 1500`, `item_count = 5`. -/
def sel_example_fast : Order :=
  { newOrder "c" with items := [⟨"X", 5, 300⟩] }

/-- Order realizing `subtotal = 300`, `item_count = 4`. -/
def sel_example_economic : Order :=
  { newOrder "c" with items := [⟨"X", 4, 75⟩] }

/-- Stock state with 5 units of everything. -/
def exStocks2 : Stocks := fun _ => 5

/-- Order with the Fast strategy and no tracking code. -/
def c7_order : Order := { newOrder "c" with shippingMethod := some .fast }

/-- Order with one 400-priced line and the Economic strategy assigned:
`shipping_cost` is computed as 20 at assignment time (`subtotal = 400`). -/
def c10_order : Order :=
  Order.set_shipping_method { newOrder "c" with items := [⟨"A", 1, 400⟩] } (some .economic)

/-- `c10_order` after a further line is added (`subtotal` now 600). -/
def c10_after : Order :=
  (c10_order.add_item ⟨"B", 200⟩ 1 (fun _ => 10)).order

/-! ## C5: shipping cost formulas -/

/-- C5: each strategy's `calculate_cost` equals the spec formula in
`item_count = sum of line quantities` and `subtotal = sum of line
price×quantity`; in particular Fast with `item_count = 4`, `subtotal = 1200`
costs exactly 63. -/
theorem shipping_cost_formulas (o : Order) :
    ShippingMethod.calculate_cost .fast o = spec_fast_cost o.item_count o.get_subtotal ∧
    ShippingMethod.calculate_cost .economic o = spec_economic_cost o.get_subtotal ∧
    ShippingMethod.calculate_cost .drone o = spec_drone_cost o.item_count ∧
    ShippingMethod.calculate_cost .fast fast_example = 63 := by
  refine ⟨rfl, rfl, rfl, ?_⟩
  norm_num [ShippingMethod.calculate_cost, fast_example, newOrder,
      Order.item_count, Order.get_subtotal, OrderItem.get_subtotal]

/-! ## C6: automatic shipping selection -/

/-- C6: the automatic selector factors through the pure spec selector on
`(subtotal, item_count)` (hence it is deterministic in that pair), and the
three spec instances select Drone, Fast and Economic respectively. -/
theorem optimal_shipping_selection (o : Order) :
    ShippingFactory.get_optimal_shipping_method o = spec_selector o.get_subtotal o.item_count ∧
    ShippingFactory.get_optimal_shipping_method sel_example_drone = .drone ∧
    ShippingFactory.get_optimal_shipping_method sel_example_fast = .fast ∧
    ShippingFactory.get_optimal_shipping_method sel_example_economic = .economic := by
  refine ⟨rfl, ?_, ?_, ?_⟩ <;>
    norm_num [ShippingFactory.get_optimal_shipping_method, sel_example_drone,
      sel_example_fast, sel_example_economic, newOrder, Order.item_count,
      Order.get_subtotal, OrderItem.get_subtotal]

/-! ## C4: the `update_stock` contract and non-negativity -/

lemma inv_get_mem : ∀ {inv : Inventory} {pid : String} {st : Int},
    inv_get inv pid = some st → (pid, st) ∈ inv := by
  intro inv
  induction inv with
  | nil => intro pid st h; simp [inv_get] at h
  | cons e rest ih =>
    obtain ⟨k, v⟩ := e
    intro pid st h
    rw [inv_get] at h
    split at h
    · rename_i he
      subst he
      obtain rfl := Option.some.inj h
      exact List.mem_cons_self _ _
    · exact List.mem_cons_of_mem _ (ih h)

lemma inv_set_mem : ∀ {inv : Inventory} {pid : String} {v : Int} {e : String × Int},
    e ∈ inv_set inv pid v → e ∈ inv ∨ e = (pid, v) := by
  intro inv
  induction inv with
  | nil => intro pid v e h; simp [inv_set] at h
  | cons f rest ih =>
    intro pid v e h
    rw [inv_set] at h
    split at h
    · rcases List.mem_cons.mp h with h1 | h1
      · exact Or.inr h1
      · exact Or.inl (List.mem_cons_of_mem _ h1)
    · rcases List.mem_cons.mp h with h1 | h1
      · exact Or.inl (h1 ▸ List.mem_cons_self _ _)
      · rcases ih h1 with h2 | h2
        · exact Or.inl (List.mem_cons_of_mem _ h2)
        · exact Or.inr h2

lemma update_stock_nonneg (inv : Inventory) (pid : String) (δ : Int)
    (h : ∀ e ∈ inv, 0 ≤ e.2) :
    ∀ e ∈ (InventoryManager.update_stock inv pid δ).2, 0 ≤ e.2 := by
  unfold InventoryManager.update_stock
  cases hg : inv_get inv pid with
  | none => simpa using h
  | some st =>
    have hst : 0 ≤ st := h _ (inv_get_mem hg)
    dsimp only
    split_ifs with h1 h2
    · simpa using h
    · intro e he
      rcases inv_set_mem he with h3 | h3
      · exact h _ h3
      · have hle : |δ| ≤ st := by
          rcases not_and_or.mp h1 with h4 | h4
          · exact absurd h2 h4
          · omega
        subst h3
        simp only [Product.decrease_stock, ge_iff_le, hle, if_true]
        omega
    · have h0 : 0 ≤ δ := le_of_not_lt h2
      have : Product.increase_stock st δ = .ok (st + δ) := by
        simp [Product.increase_stock, not_lt.mpr h0]
      rw [this]
      intro e he
      rcases inv_set_mem he with h3 | h3
      · exact h _ h3
      · subst h3
        simpa using add_nonneg hst h0

lemma apply_stock_ops_nonneg : ∀ (ops : List (String × Int)) (inv : Inventory),
    (∀ e ∈ inv, 0 ≤ e.2) → ∀ e ∈ apply_stock_ops inv ops, 0 ≤ e.2 := by
  intro ops
  induction ops with
  | nil => intro inv h; simpa [apply_stock_ops] using h
  | cons op rest ih =>
    intro inv h
    simpa [apply_stock_ops, List.foldl_cons] using
      ih _ (update_stock_nonneg inv op.1 op.2 h)

/-- C4: `update_stock` fails without mutation on an unknown id, and on a
negative delta exceeding the stock; in every other case it succeeds and the
entry becomes `stock + delta`; consequently all registered stocks stay
non-negative under any sequence of `update_stock` calls. -/
theorem update_stock_spec :
    (∀ (inv : Inventory) (pid : String) (δ : Int), inv_get inv pid = none →
      InventoryManager.update_stock inv pid δ = (.ok false, inv)) ∧
    (∀ (inv : Inventory) (pid : String) (δ st : Int), δ < 0 →
      inv_get inv pid = some st → st < |δ| →
      InventoryManager.update_stock inv pid δ = (.ok false, inv)) ∧
    (∀ (inv : Inventory) (pid : String) (δ st : Int), inv_get inv pid = some st →
      0 ≤ δ ∨ |δ| ≤ st →
      InventoryManager.update_stock inv pid δ = (.ok true, inv_set inv pid (st + δ))) ∧
    (∀ (inv : Inventory) (ops : List (String × Int)), (∀ e ∈ inv, 0 ≤ e.2) →
      ∀ e ∈ apply_stock_ops inv ops, 0 ≤ e.2) := by
  refine ⟨?_, ?_, ?_, fun inv ops h => apply_stock_ops_nonneg ops inv h⟩
  · intro inv pid δ h
    simp [InventoryManager.update_stock, h]
  · intro inv pid δ st hδ h hlt
    simp [InventoryManager.update_stock, h, hδ, hlt]
  · intro inv pid δ st h hcase
    rcases lt_or_le δ 0 with hneg | hpos
    · have hle : |δ| ≤ st := by
        rcases hcase with h4 | h4
        · omega
        · exact h4
      have hval : (Product.decrease_stock st |δ|).2 = st + δ := by
        simp only [Product.decrease_stock, ge_iff_le, hle, if_true]
        rw [abs_of_neg hneg]
        ring
      simp [InventoryManager.update_stock, h, hneg, not_lt.mpr hle, hval]
    · have : Product.increase_stock st δ = .ok (st + δ) := by
        simp [Product.increase_stock, not_lt.mpr hpos]
      simp [InventoryManager.update_stock, h, not_lt.mpr hpos, this]

/-- Witness for C4: concrete failing and succeeding `update_stock` calls and
a concrete operation sequence keeping stocks non-negative. -/
theorem update_stock_spec_witness :
    InventoryManager.update_stock [("A", 5)] "A" (-7) = (.ok false, [("A", 5)]) ∧
    InventoryManager.update_stock [("A", 5)] "A" (-3)
      = (.ok true, inv_set [("A", 5)] "A" (5 + -3)) ∧
    InventoryManager.update_stock [("B", 5)] "A" 2 = (.ok false, [("B", 5)]) ∧
    (∀ e ∈ apply_stock_ops [("A", 5)] [("A", -3), ("A", 4)], 0 ≤ e.2) :=
  ⟨update_stock_spec.2.1 [("A", 5)] "A" (-7) 5 (by norm_num) (by decide) (by decide),
   update_stock_spec.2.2.1 [("A", 5)] "A" (-3) 5 (by decide) (by norm_num),
   update_stock_spec.1 [("B", 5)] "A" 2 (by decide),
   update_stock_spec.2.2.2 [("A", 5)] [("A", -3), ("A", 4)] (by decide)⟩

/-! ## C7: tracking code and delivery estimate on SHIPPED -/

lemma isUpper_uppercase_getD (n : ℕ) :
    (string_ascii_uppercase.getD (n % 26) 'A').isUpper = true := by
  have hlen : string_ascii_uppercase.length = 26 := by decide
  have h : n % 26 < string_ascii_uppercase.length := by
    rw [hlen]; exact Nat.mod_lt _ (by norm_num)
  have hall : ∀ c ∈ string_ascii_uppercase, c.isUpper = true := by decide
  rw [List.getD_eq_get?, List.get?_eq_get h, Option.getD_some]
  exact hall _ (List.get_mem _ _ _)

lemma isDigit_digits_getD (n : ℕ) :
    (string_digits.getD (n % 10) '0').isDigit = true := by
  have hlen : string_digits.length = 10 := by decide
  have h : n % 10 < string_digits.length := by
    rw [hlen]; exact Nat.mod_lt _ (by norm_num)
  have hall : ∀ c ∈ string_digits, c.isDigit = true := by decide
  rw [List.getD_eq_get?, List.get?_eq_get h, Option.getD_some]
  exact hall _ (List.get_mem _ _ _)

lemma tracking_format_generate (g : ℕ → ℕ) :
    tracking_format (ShippingMethod.generate_tracking_number g) := by
  unfold ShippingMethod.generate_tracking_number
  set letters := (List.range 2).map
    (fun i => string_ascii_uppercase.getD (g i % 26) 'A') with hl
  set numbers := (List.range 8).map
    (fun i => string_digits.getD (g (2 + i) % 10) '0') with hn
  have hllen : letters.length = 2 := by simp [hl]
  have hnlen : numbers.length = 8 := by simp [hn]
  have htake : (letters ++ numbers).take 2 = letters := by
    rw [← hllen, List.take_left]
  have hdrop : (letters ++ numbers).drop 2 = numbers := by
    rw [← hllen, List.drop_left]
  refine ⟨?_, ?_, ?_⟩
  · show (letters ++ numbers).length = 10
    simp [hllen, hnlen]
  · show ∀ c ∈ (letters ++ numbers).take 2, c.isUpper = true
    rw [htake]
    intro c hc
    obtain ⟨i, _, rfl⟩ := List.mem_map.mp hc
    exact isUpper_uppercase_getD _
  · show ∀ c ∈ (letters ++ numbers).drop 2, c.isDigit = true
    rw [hdrop]
    intro c hc
    obtain ⟨i, _, rfl⟩ := List.mem_map.mp hc
    exact isDigit_digits_getD _

/-- C7: transitioning an order that has a shipping strategy to SHIPPED
assigns, when no tracking code is present, a code matching
`[A-Z]{2}[0-9]{8}`, stores the strategy's delivery estimate, and never
regenerates a (nonempty) tracking code that is already assigned. -/
theorem shipped_transition_tracking (o : Order) (now : Int) (g : ℕ → ℕ)
    (hm : o.shippingMethod.isSome = true) :
    (o.trackingNumber = none →
      ∃ t, (OrderFactory.update_order_status o (.valid .shipped) now g).order.trackingNumber
          = some t ∧ tracking_format t) ∧
    (∃ m, o.shippingMethod = some m ∧
      (OrderFactory.update_order_status o (.valid .shipped) now g).order.deliveryDate
        = some (m.estimate_delivery_time now g)) ∧
    (∀ t, o.trackingNumber = some t → t ≠ "" →
      (OrderFactory.update_order_status o (.valid .shipped) now g).order.trackingNumber
        = some t) := by
  obtain ⟨cid, its, st, sm, sc, dd, tn, nt⟩ := o
  cases sm with
  | none => simp at hm
  | some m =>
    cases tn with
    | none =>
      refine ⟨fun _ => ⟨ShippingMethod.generate_tracking_number g, ?_,
        tracking_format_generate g⟩, ⟨m, rfl, ?_⟩, fun t ht => by simp at ht⟩ <;>
        simp [OrderFactory.update_order_status, pyFalsyStr]
    | some t0 =>
      refine ⟨fun h => by simp at h, ⟨m, rfl, ?_⟩, fun t ht hne => ?_⟩
      · by_cases h0 : t0 = "" <;>
          simp [OrderFactory.update_order_status, pyFalsyStr, h0]
      · obtain rfl : t0 = t := by simpa using ht
        simp [OrderFactory.update_order_status, pyFalsyStr, hne]

/-- Witness for C7 at a concrete order, time and seed stream. -/
theorem shipped_transition_tracking_witness :
    (c7_order.trackingNumber = none →
      ∃ t, (OrderFactory.update_order_status c7_order (.valid .shipped) 0
          (fun _ => 0)).order.trackingNumber = some t ∧ tracking_format t) ∧
    (∃ m, c7_order.shippingMethod = some m ∧
      (OrderFactory.update_order_status c7_order (.valid .shipped) 0
          (fun _ => 0)).order.deliveryDate
        = some (m.estimate_delivery_time 0 (fun _ => 0))) ∧
    (∀ t, c7_order.trackingNumber = some t → t ≠ "" →
      (OrderFactory.update_order_status c7_order (.valid .shipped) 0
          (fun _ => 0)).order.trackingNumber = some t) :=
  shipped_transition_tracking c7_order 0 (fun _ => 0) rfl

/-! ## C8: status-transition validation -/

/-- C8: `update_order_status` on a value that is not an `OrderStatus` returns
`False`, leaves the order unchanged and dispatches no notification; on any
recognized status it returns `True` and sets the order's status to that
value, whatever the previous status was. -/
theorem update_status_validation (o : Order) (now : Int) (g : ℕ → ℕ) :
    OrderFactory.update_order_status o .notAStatus now g = ⟨false, o, []⟩ ∧
    ∀ ns : OrderStatus,
      (OrderFactory.update_order_status o (.valid ns) now g).ok = true ∧
      (OrderFactory.update_order_status o (.valid ns) now g).order.status = ns := by
  refine ⟨rfl, fun ns => ⟨rfl, ?_⟩⟩
  simp only [OrderFactory.update_order_status]
  split
  · split <;> split <;> rfl
  · rfl

/-! ## C10: shipping cost is frozen at assignment time -/

/-- C10: the shipping-method setter computes `shipping_cost` from the lines
present at assignment time; `add_item` and `remove_item` never change the
stored `shipping_cost` (while `get_total` always re-adds it to the current
subtotal); consequently the stored cost can differ from what the strategy
would return on the current lines, as `c10_after` shows (stored 20, current
Economic cost 0). -/
theorem shipping_cost_frozen :
    (∀ (o : Order) (m : ShippingMethod), (Order.set_shipping_method o (some m)).shippingCost
        = ShippingMethod.calculate_cost m { o with shippingMethod := some m }) ∧
    (∀ (o : Order) (p : Product) (q : Int) (s : Stocks),
        (Order.add_item o p q s).order.shippingCost = o.shippingCost) ∧
    (∀ (o : Order) (pid : String) (s : Stocks),
        (Order.remove_item o pid s).order.shippingCost = o.shippingCost) ∧
    (∀ o : Order, o.get_total = o.get_subtotal + o.shippingCost) ∧
    c10_after.shippingCost = 20 ∧
    ShippingMethod.calculate_cost .economic c10_after = 0 := by
  have hAB : (("A" : String) = "B") = False := eq_false (by decide)
  refine ⟨fun o m => rfl, fun o p q s => ?_, fun o pid s => rfl, fun o => rfl, ?_, ?_⟩
  · simp only [Order.add_item]
    split_ifs <;> rfl
  · norm_num [hAB, c10_after, c10_order, Order.add_item, Order.set_shipping_method,
      ShippingMethod.calculate_cost, Product.decrease_stock, newOrder,
      Order.get_subtotal, OrderItem.get_subtotal, Order.item_count]
  · norm_num [hAB, ShippingMethod.calculate_cost, c10_after, c10_order, Order.add_item,
      Order.set_shipping_method, Product.decrease_stock, newOrder,
      Order.get_subtotal, OrderItem.get_subtotal, Order.item_count]

/-! ## Order-construction lemmas shared by the creation/rollback claims -/

lemma reserved_for_nil (pid : String) : reserved_for [] pid = 0 := rfl

lemma reserved_for_cons (it : OrderItem) (items : List OrderItem) (pid : String) :
    reserved_for (it :: items) pid
      = (if it.productId = pid then it.quantity else 0) + reserved_for items pid := by
  by_cases h : it.productId = pid <;>
    simp [reserved_for, List.filter_cons, h]

lemma reserved_for_append (xs ys : List OrderItem) (pid : String) :
    reserved_for (xs ++ ys) pid = reserved_for xs pid + reserved_for ys pid := by
  simp [reserved_for, List.filter_append]

lemma requested_for_cons (pq : Product × Int) (reqs : List (Product × Int)) (pid : String) :
    requested_for (pq :: reqs) pid
      = (if pq.1.productId = pid then pq.2 else 0) + requested_for reqs pid := by
  by_cases h : pq.1.productId = pid <;>
    simp [requested_for, List.filter_cons, h]

lemma requested_for_not_mem : ∀ (reqs : List (Product × Int)) (pid : String),
    pid ∉ reqs.map (fun pq => pq.1.productId) → requested_for reqs pid = 0 := by
  intro reqs
  induction reqs with
  | nil => intro pid _; rfl
  | cons pq rest ih =>
    intro pid h
    rw [List.map_cons, List.mem_cons, not_or] at h
    rw [requested_for_cons, if_neg (fun hc => h.1 hc.symm), ih pid h.2, add_zero]

lemma requested_for_eq_of_mem : ∀ (reqs : List (Product × Int)) (p : Product) (q : Int),
    (p, q) ∈ reqs → (reqs.map (fun pq => pq.1.productId)).Nodup →
    requested_for reqs p.productId = q := by
  intro reqs
  induction reqs with
  | nil => intro p q hmem _; simp at hmem
  | cons pq rest ih =>
    intro p q hmem hnodup
    rw [List.map_cons, List.nodup_cons] at hnodup
    rcases List.mem_cons.mp hmem with h | h
    · obtain rfl := h.symm
      rw [requested_for_cons, if_pos rfl,
        requested_for_not_mem rest p.productId hnodup.1, add_zero]
    · have hpid : p.productId ∈ rest.map (fun pq => pq.1.productId) :=
        List.mem_map.mpr ⟨(p, q), h, rfl⟩
      have hne : pq.1.productId ≠ p.productId := fun hc => hnodup.1 (hc ▸ hpid)
      rw [requested_for_cons, if_neg hne, ih p q h hnodup.2, zero_add]

lemma add_item_nonpos (o : Order) (p : Product) (q : Int) (s : Stocks) (hq : q ≤ 0) :
    o.add_item p q s = ⟨.raised, o, s⟩ := by
  simp [Order.add_item, hq]

lemma add_item_insufficient (o : Order) (p : Product) (q : Int) (s : Stocks)
    (hq : 0 < q) (hlt : s p.productId < q) :
    o.add_item p q s = ⟨.ok false, o, s⟩ := by
  have hd : Product.decrease_stock (s p.productId) q = (false, s p.productId) := by
    unfold Product.decrease_stock
    rw [if_neg (by omega)]
  simp [Order.add_item, hd, not_le.mpr hq]

lemma add_item_success_new (o : Order) (p : Product) (q : Int) (s : Stocks)
    (hq : 0 < q) (hge : q ≤ s p.productId)
    (hnew : ∀ it ∈ o.items, it.productId ≠ p.productId) :
    o.add_item p q s
      = ⟨.ok true, { o with items := o.items ++ [⟨p.productId, q, p.price⟩] },
          updateMap s p.productId (s p.productId - q)⟩ := by
  have hd : Product.decrease_stock (s p.productId) q = (true, s p.productId - q) := by
    unfold Product.decrease_stock
    rw [if_pos (by omega)]
  have hany : o.items.any (fun it => it.productId = p.productId) = false := by
    simp only [List.any_eq_false, decide_eq_true_eq]
    exact hnew
  simp [Order.add_item, hd, hany, not_le.mpr hq]

lemma add_item_success_dup (o : Order) (p : Product) (q : Int) (s : Stocks)
    (hq : 0 < q) (hge : q ≤ s p.productId)
    (hdup : o.items.any (fun it => it.productId = p.productId) = true) :
    o.add_item p q s
      = ⟨.ok true, o, updateMap s p.productId (s p.productId - q)⟩ := by
  have hd : Product.decrease_stock (s p.productId) q = (true, s p.productId - q) := by
    unfold Product.decrease_stock
    rw [if_pos (by omega)]
  simp [Order.add_item, hd, hdup, not_le.mpr hq]

lemma restore_items_spec : ∀ (items : List OrderItem) (s : Stocks),
    (∀ it ∈ items, 0 ≤ it.quantity) →
    (restore_items items s).1 = .ok () ∧
    ∀ pid, (restore_items items s).2 pid = s pid + reserved_for items pid := by
  intro items
  induction items with
  | nil =>
    intro s _
    exact ⟨rfl, fun pid => by simp [restore_items, reserved_for_nil]⟩
  | cons it rest ih =>
    intro s hq
    have hq0 : 0 ≤ it.quantity := hq it (List.mem_cons_self _ _)
    have hinc : Product.increase_stock (s it.productId) it.quantity
        = .ok (s it.productId + it.quantity) := by
      simp [Product.increase_stock, not_lt.mpr hq0]
    have hrec := ih (updateMap s it.productId (s it.productId + it.quantity))
      (fun j hj => hq j (List.mem_cons_of_mem _ hj))
    constructor
    · rw [restore_items, hinc]
      exact hrec.1
    · intro pid
      rw [restore_items, hinc, reserved_for_cons]
      rw [hrec.2 pid]
      by_cases hpid : it.productId = pid
      · subst hpid
        simp [updateMap]
        ring
      · have hpid' : ¬ pid = it.productId := fun hc => hpid hc.symm
        simp [updateMap, hpid, hpid']

lemma updateMap_same (s : Stocks) (pid : String) (v : Int) : updateMap s pid v pid = v := by
  simp [updateMap]

lemma updateMap_other (s : Stocks) (pid : String) (v : Int) (i : String) (h : i ≠ pid) :
    updateMap s pid v i = s i := by
  simp [updateMap, h]

lemma create_order_loop_fail :
    ∀ (reqs : List (Product × Int)) (o : Order) (s s0 : Stocks),
    (∀ pq ∈ reqs, 0 < pq.2) →
    (reqs.map (fun pq => pq.1.productId)).Nodup →
    (∀ it ∈ o.items, 0 ≤ it.quantity) →
    (∀ it ∈ o.items, ∀ pq ∈ reqs, it.productId ≠ pq.1.productId) →
    (∀ pid, s pid + reserved_for o.items pid = s0 pid) →
    (∃ pq ∈ reqs, s pq.1.productId < pq.2) →
    (create_order_loop o reqs s).res = .ok none ∧
    ∀ pid, (create_order_loop o reqs s).stocks pid = s0 pid := by
  intro reqs
  induction reqs with
  | nil => intro o s s0 _ _ _ _ _ hfail; simp at hfail
  | cons hd rest ih =>
    obtain ⟨p, q⟩ := hd
    intro o s s0 hpos hnodup hiq hdisj hdebt hfail
    rw [List.map_cons, List.nodup_cons] at hnodup
    have hq : 0 < q := hpos (p, q) (List.mem_cons_self _ _)
    rcases lt_or_le (s p.productId) q with hlt | hge
    · rw [create_order_loop, add_item_insufficient o p q s hq hlt]
      obtain ⟨hr1, hr2⟩ := restore_items_spec o.items s hiq
      rcases hres : restore_items o.items s with ⟨r1, r2⟩
      rw [hres] at hr1 hr2
      dsimp only at hr1 hr2 ⊢
      rw [hr1]
      refine ⟨rfl, fun pid => ?_⟩
      show r2 pid = s0 pid
      rw [hr2 pid, hdebt pid]
    · have hnew : ∀ it ∈ o.items, it.productId ≠ p.productId :=
        fun it hit => hdisj it hit (p, q) (List.mem_cons_self _ _)
      rw [create_order_loop, add_item_success_new o p q s hq hge hnew]
      dsimp only
      apply ih
      · exact fun pq h => hpos pq (List.mem_cons_of_mem _ h)
      · exact hnodup.2
      · intro it hit
        rcases List.mem_append.mp hit with h | h
        · exact hiq it h
        · simp at h
          rw [h]
          show (0 : Int) ≤ q
          omega
      · intro it hit pq' hpq'
        rcases List.mem_append.mp hit with h | h
        · exact hdisj it h pq' (List.mem_cons_of_mem _ hpq')
        · simp at h
          rw [h]
          dsimp only
          intro hc
          exact hnodup.1 (hc ▸ List.mem_map.mpr ⟨pq', hpq', rfl⟩)
      · intro pid
        rw [reserved_for_append, reserved_for_cons, reserved_for_nil, add_zero]
        dsimp only
        by_cases hpid : pid = p.productId
        · subst hpid
          rw [updateMap_same, if_pos rfl]
          have h0 := hdebt p.productId
          omega
        · rw [updateMap_other _ _ _ _ hpid, if_neg (fun hc => hpid hc.symm)]
          have h0 := hdebt pid
          omega
      · obtain ⟨pq', hmem', hlt'⟩ := hfail
        rcases List.mem_cons.mp hmem' with h | h
        · exfalso
          rw [h] at hlt'
          dsimp only at hlt'
          omega
        · refine ⟨pq', h, ?_⟩
          have hne : pq'.1.productId ≠ p.productId := by
            intro hc
            exact hnodup.1 (hc ▸ List.mem_map.mpr ⟨pq', h, rfl⟩)
          rw [updateMap_other _ _ _ _ hne]
          exact hlt'

lemma create_order_loop_success :
    ∀ (reqs : List (Product × Int)) (o : Order) (s : Stocks),
    (∀ pq ∈ reqs, 0 < pq.2) →
    (reqs.map (fun pq => pq.1.productId)).Nodup →
    (∀ it ∈ o.items, ∀ pq ∈ reqs, it.productId ≠ pq.1.productId) →
    (∀ pq ∈ reqs, pq.2 ≤ s pq.1.productId) →
    (create_order_loop o reqs s).res
      = .ok (some { o with items := o.items ++ reqs.map mkOrderItem }) ∧
    ∀ pid, (create_order_loop o reqs s).stocks pid = s pid - requested_for reqs pid := by
  intro reqs
  induction reqs with
  | nil =>
    intro o s _ _ _ _
    refine ⟨?_, fun pid => by simp [create_order_loop, requested_for]⟩
    simp [create_order_loop]
  | cons hd rest ih =>
    obtain ⟨p, q⟩ := hd
    intro o s hpos hnodup hdisj hok
    rw [List.map_cons, List.nodup_cons] at hnodup
    have hq : 0 < q := hpos (p, q) (List.mem_cons_self _ _)
    have hge : q ≤ s p.productId := hok (p, q) (List.mem_cons_self _ _)
    have hnew : ∀ it ∈ o.items, it.productId ≠ p.productId :=
      fun it hit => hdisj it hit (p, q) (List.mem_cons_self _ _)
    rw [create_order_loop, add_item_success_new o p q s hq hge hnew]
    dsimp only
    have hrec := ih { o with items := o.items ++ [⟨p.productId, q, p.price⟩] }
      (updateMap s p.productId (s p.productId - q))
      (fun pq h => hpos pq (List.mem_cons_of_mem _ h))
      hnodup.2
      ?_ ?_
    · refine ⟨?_, fun pid => ?_⟩
      · rw [hrec.1]
        simp [mkOrderItem, List.append_assoc]
      · rw [hrec.2 pid, requested_for_cons]
        dsimp only
        by_cases hpid : pid = p.productId
        · subst hpid
          rw [updateMap_same, if_pos rfl]
          omega
        · rw [updateMap_other _ _ _ _ hpid, if_neg (fun hc => hpid hc.symm)]
          omega
    · intro it hit pq' hpq'
      rcases List.mem_append.mp hit with h | h
      · exact hdisj it h pq' (List.mem_cons_of_mem _ hpq')
      · simp at h
        rw [h]
        dsimp only
        intro hc
        exact hnodup.1 (hc ▸ List.mem_map.mpr ⟨pq', hpq', rfl⟩)
    · intro pq' hpq'
      have hne : pq'.1.productId ≠ p.productId := by
        intro hc
        exact hnodup.1 (hc ▸ List.mem_map.mpr ⟨pq', hpq', rfl⟩)
      rw [updateMap_other _ _ _ _ hne]
      exact hok pq' (List.mem_cons_of_mem _ hpq')

lemma finalize_order_items (o1 : Order) (ss : Bool) (sm : Option ShippingMethod)
    (notes : Option String) : (finalize_order o1 ss sm notes).items = o1.items := by
  unfold finalize_order Order.set_shipping_method
  cases sm <;> split_ifs <;> rfl

lemma create_order_of_loop_none (cid : String) (reqs : List (Product × Int))
    (ss : Bool) (sm : Option ShippingMethod) (notes : Option String) (s : Stocks)
    (h : (create_order_loop (newOrder cid) reqs s).res = .ok none) :
    OrderFactory.create_order cid reqs ss sm notes s
      = ⟨.ok none, (create_order_loop (newOrder cid) reqs s).stocks, []⟩ := by
  simp only [OrderFactory.create_order]
  rw [h]

lemma create_order_of_loop_some (cid : String) (reqs : List (Product × Int))
    (ss : Bool) (sm : Option ShippingMethod) (notes : Option String) (s : Stocks)
    (o1 : Order) (h : (create_order_loop (newOrder cid) reqs s).res = .ok (some o1)) :
    OrderFactory.create_order cid reqs ss sm notes s
      = ⟨.ok (some (finalize_order o1 ss sm notes)),
          (create_order_loop (newOrder cid) reqs s).stocks,
          ["Siparisiniz basariyla olusturuldu!"]⟩ := by
  simp only [OrderFactory.create_order]
  rw [h]

lemma remove_first_unique : ∀ (items : List OrderItem) (it : OrderItem) (s : Stocks),
    it ∈ items → (items.map (fun j => j.productId)).Nodup → 0 ≤ it.quantity →
    (remove_first items it.productId s).1 = .ok true ∧
    (remove_first items it.productId s).2.2 it.productId = s it.productId + it.quantity := by
  intro items
  induction items with
  | nil => intro it s hmem _ _; simp at hmem
  | cons j rest ih =>
    intro it s hmem hnodup hq
    rw [List.map_cons, List.nodup_cons] at hnodup
    rcases List.mem_cons.mp hmem with h | h
    · subst h
      have hinc : Product.increase_stock (s it.productId) it.quantity
          = .ok (s it.productId + it.quantity) := by
        simp [Product.increase_stock, not_lt.mpr hq]
      rw [remove_first, if_pos rfl, hinc]
      exact ⟨rfl, updateMap_same _ _ _⟩
    · have hne : j.productId ≠ it.productId := by
        intro hc
        exact hnodup.1 (hc ▸ List.mem_map.mpr ⟨it, h, rfl⟩)
      rw [remove_first, if_neg hne]
      exact ih it s h hnodup.2 hq

lemma map_productId_mkOrderItem (reqs : List (Product × Int)) :
    (reqs.map mkOrderItem).map (fun it => it.productId)
      = reqs.map (fun pq => pq.1.productId) := by
  simp [List.map_map, Function.comp, mkOrderItem]

/-! ## C1: all-or-nothing order creation -/

/-- C1 (amended): for a `create_order` call whose requested lines have
positive quantities and pairwise distinct product ids, if at least one line
cannot be reserved the call returns `None` (never a partial order) and every
product's stock equals its value before the call.  (With duplicate ids the
quantity reserved by a duplicate request is not restored — see the
counterexample.) -/
theorem create_order_atomic_rollback (cid : String) (reqs : List (Product × Int))
    (ss : Bool) (sm : Option ShippingMethod) (notes : Option String) (s : Stocks)
    (hpos : ∀ pq ∈ reqs, 0 < pq.2)
    (hnodup : (reqs.map (fun pq => pq.1.productId)).Nodup)
    (hfail : ∃ pq ∈ reqs, s pq.1.productId < pq.2) :
    (OrderFactory.create_order cid reqs ss sm notes s).res = .ok none ∧
    ∀ pid, (OrderFactory.create_order cid reqs ss sm notes s).stocks pid = s pid := by
  have hloop := create_order_loop_fail reqs (newOrder cid) s s hpos hnodup
    (by simp [newOrder]) (by simp [newOrder])
    (fun pid => by simp [newOrder, reserved_for_nil]) hfail
  rw [create_order_of_loop_none cid reqs ss sm notes s hloop.1]
  exact ⟨rfl, hloop.2⟩

/-- C1 counterexample: requesting item `A` twice and then an unsatisfiable
line makes the call fail (`None` returned), but the stock of `A` ends at 2
instead of its initial 5: the duplicate request's reservation of 3 units is
never restored. -/
theorem create_order_atomic_refuted :
    (OrderFactory.create_order "c" [(pA, 2), (pA, 3), (pB, 1)]
        false none none exStocks).res = .ok none ∧
    (OrderFactory.create_order "c" [(pA, 2), (pA, 3), (pB, 1)]
        false none none exStocks).stocks "A" = 2 ∧
    exStocks "A" = 5 := ⟨rfl, rfl, rfl⟩

/-- Witness for C1 at a concrete request list and stock state. -/
theorem create_order_atomic_rollback_witness :
    (OrderFactory.create_order "c" [(pA, 2), (pB, 1)] false none none exStocks).res
      = .ok none ∧
    ∀ pid, (OrderFactory.create_order "c" [(pA, 2), (pB, 1)] false none none exStocks).stocks pid
      = exStocks pid :=
  create_order_atomic_rollback "c" [(pA, 2), (pB, 1)] false none none exStocks
    (by decide) (by decide)
    ⟨(pB, 1), List.mem_cons_of_mem _ (List.mem_cons_self _ _), by decide⟩

/-! ## C2: duplicate item ids within one call -/

/-- C2 (amended): requesting the same item id twice within one call performs
two independent sequential reservations against the same stock pool, but the
created order contains only ONE line for that id, carrying the first
request's quantity; the second quantity is deducted from stock without being
recorded in any line. -/
theorem duplicate_request_single_line (cid : String) (p : Product) (q1 q2 : Int)
    (ss : Bool) (sm : Option ShippingMethod) (notes : Option String) (s : Stocks)
    (h1 : 0 < q1) (h2 : 0 < q2) (hs : q1 + q2 ≤ s p.productId) :
    ∃ o, (OrderFactory.create_order cid [(p, q1), (p, q2)] ss sm notes s).res
        = .ok (some o) ∧
      o.items = [⟨p.productId, q1, p.price⟩] ∧
      (OrderFactory.create_order cid [(p, q1), (p, q2)] ss sm notes s).stocks p.productId
        = s p.productId - q1 - q2 := by
  have e1 := add_item_success_new (newOrder cid) p q1 s h1 (by omega) (by simp [newOrder])
  have hge2 : q2 ≤ updateMap s p.productId (s p.productId - q1) p.productId := by
    rw [updateMap_same]
    omega
  have hdup2 : ({ newOrder cid with items := [⟨p.productId, q1, p.price⟩] } : Order).items.any
      (fun it => it.productId = p.productId) = true := by simp
  have e2 := add_item_success_dup { newOrder cid with items := [⟨p.productId, q1, p.price⟩] }
    p q2 (updateMap s p.productId (s p.productId - q1)) h2 hge2 hdup2
  have hloop : create_order_loop (newOrder cid) [(p, q1), (p, q2)] s
      = ⟨.ok (some ({ newOrder cid with items := [⟨p.productId, q1, p.price⟩] } : Order)),
          updateMap (updateMap s p.productId (s p.productId - q1)) p.productId
            (updateMap s p.productId (s p.productId - q1) p.productId - q2)⟩ := by
    rw [create_order_loop, e1]
    dsimp only [newOrder, List.nil_append]
    dsimp only [newOrder, List.nil_append] at e2
    rw [create_order_loop, e2]
    rfl
  have hsome : (create_order_loop (newOrder cid) [(p, q1), (p, q2)] s).res
      = .ok (some ({ newOrder cid with items := [⟨p.productId, q1, p.price⟩] } : Order)) := by
    rw [hloop]
  rw [create_order_of_loop_some cid [(p, q1), (p, q2)] ss sm notes s _ hsome]
  refine ⟨_, rfl, ?_, ?_⟩
  · rw [finalize_order_items]
  · show (create_order_loop (newOrder cid) [(p, q1), (p, q2)] s).stocks p.productId
      = s p.productId - q1 - q2
    rw [hloop]
    show updateMap (updateMap s p.productId (s p.productId - q1)) p.productId
      (updateMap s p.productId (s p.productId - q1) p.productId - q2) p.productId
      = s p.productId - q1 - q2
    rw [updateMap_same, updateMap_same]

/-- C2 counterexample: create an order requesting `(A, 2)` then `(A, 3)`
from a stock of 5: both reservations happen (final stock 0), but the
resulting order has exactly one line, not two. -/
theorem duplicate_two_lines_refuted :
    (created_order (OrderFactory.create_order "c" [(pA, 2), (pA, 3)]
        false none none exStocks)).map (fun o => o.items.length) = some 1 ∧
    (OrderFactory.create_order "c" [(pA, 2), (pA, 3)]
        false none none exStocks).stocks "A" = 0 ∧
    exStocks "A" = 5 := ⟨rfl, rfl, rfl⟩

/-- Witness for C2 at a concrete duplicate request. -/
theorem duplicate_request_single_line_witness :
    ∃ o, (OrderFactory.create_order "c" [(pA, 2), (pA, 3)] false none none exStocks).res
        = .ok (some o) ∧
      o.items = [⟨pA.productId, 2, pA.price⟩] ∧
      (OrderFactory.create_order "c" [(pA, 2), (pA, 3)] false none none
          exStocks).stocks pA.productId = exStocks pA.productId - 2 - 3 :=
  duplicate_request_single_line "c" pA 2 3 false none none exStocks
    (by decide) (by decide) (by decide)

/-! ## C3: non-positive requested quantity -/

/-- C3 (amended): a non-positive requested quantity makes `add_item` raise
`ValueError` before attempting any reservation for that line (order and
stocks unchanged at that point), and the fault propagates uncaught out of
the creation loop and out of `create_order` — it is not reported as a
`None` return. -/
theorem nonpositive_quantity_raises (o : Order) (p : Product) (q : Int) (s : Stocks)
    (rest : List (Product × Int)) (hq : q ≤ 0) :
    o.add_item p q s = ⟨.raised, o, s⟩ ∧
    create_order_loop o ((p, q) :: rest) s = ⟨.raised, s⟩ ∧
    ∀ (cid : String) (ss : Bool) (sm : Option ShippingMethod) (notes : Option String),
      OrderFactory.create_order cid ((p, q) :: rest) ss sm notes s = ⟨.raised, s, []⟩ := by
  have h1 := add_item_nonpos o p q s hq
  have h2 : create_order_loop o ((p, q) :: rest) s = ⟨.raised, s⟩ := by
    rw [create_order_loop, h1]
  refine ⟨h1, h2, fun cid ss sm notes => ?_⟩
  have h2n : create_order_loop (newOrder cid) ((p, q) :: rest) s = ⟨.raised, s⟩ := by
    rw [create_order_loop, add_item_nonpos (newOrder cid) p q s hq]
  simp only [OrderFactory.create_order]
  rw [h2n]

/-- C3 counterexample: the request `[(A, 1), (B, 0)]` raises out of
`create_order` (no `None` return) and leaves the stock of `A` at 4: the
reservation made for the earlier line is kept, so stock IS mutated. -/
theorem nonpositive_reject_refuted :
    (OrderFactory.create_order "c" [(pA, 1), (pB, 0)] false none none exStocks).res
      = .raised ∧
    (OrderFactory.create_order "c" [(pA, 1), (pB, 0)] false none none exStocks).stocks "A" = 4 ∧
    exStocks "A" = 5 := ⟨rfl, rfl, rfl⟩

/-- Witness for C3 at a concrete order, item and stock state. -/
theorem nonpositive_quantity_raises_witness :
    (newOrder "c").add_item pA 0 exStocks = ⟨.raised, newOrder "c", exStocks⟩ ∧
    create_order_loop (newOrder "c") [(pA, 0)] exStocks = ⟨.raised, exStocks⟩ ∧
    ∀ (cid : String) (ss : Bool) (sm : Option ShippingMethod) (notes : Option String),
      OrderFactory.create_order cid [(pA, 0)] ss sm notes exStocks
        = ⟨.raised, exStocks, []⟩ :=
  nonpositive_quantity_raises (newOrder "c") pA 0 exStocks [] (by decide)

/-! ## C9: removing a line restores the reserved quantity -/

/-- C9 (amended): for an order successfully created from positive-quantity
requests with pairwise distinct product ids, removing the line of product `p`
credits exactly that line's reserved quantity back, and the resulting stock
equals the stock before the order was created.  (With duplicate ids the
round trip fails — see the counterexample.) -/
theorem remove_item_round_trip (cid : String) (reqs : List (Product × Int))
    (ss : Bool) (sm : Option ShippingMethod) (notes : Option String) (s : Stocks)
    (hpos : ∀ pq ∈ reqs, 0 < pq.2)
    (hnodup : (reqs.map (fun pq => pq.1.productId)).Nodup)
    (hok : ∀ pq ∈ reqs, pq.2 ≤ s pq.1.productId)
    (p : Product) (q : Int) (hmem : (p, q) ∈ reqs) :
    ∃ o, (OrderFactory.create_order cid reqs ss sm notes s).res = .ok (some o) ∧
      (o.remove_item p.productId
          (OrderFactory.create_order cid reqs ss sm notes s).stocks).res = .ok true ∧
      (o.remove_item p.productId
          (OrderFactory.create_order cid reqs ss sm notes s).stocks).stocks p.productId
        = (OrderFactory.create_order cid reqs ss sm notes s).stocks p.productId + q ∧
      (o.remove_item p.productId
          (OrderFactory.create_order cid reqs ss sm notes s).stocks).stocks p.productId
        = s p.productId := by
  have hloop := create_order_loop_success reqs (newOrder cid) s hpos hnodup
    (by simp [newOrder]) hok
  rw [create_order_of_loop_some cid reqs ss sm notes s _ hloop.1]
  dsimp only
  have hitems : (finalize_order { newOrder cid with
      items := (newOrder cid).items ++ reqs.map mkOrderItem } ss sm notes).items
      = reqs.map mkOrderItem := by
    rw [finalize_order_items]
    simp [newOrder]
  have hmem' : (⟨p.productId, q, p.price⟩ : OrderItem) ∈ reqs.map mkOrderItem :=
    List.mem_map.mpr ⟨(p, q), hmem, rfl⟩
  have hnodup' : ((reqs.map mkOrderItem).map (fun j => j.productId)).Nodup := by
    rw [map_productId_mkOrderItem]
    exact hnodup
  have hq' : (0 : Int) ≤ (⟨p.productId, q, p.price⟩ : OrderItem).quantity :=
    le_of_lt (hpos (p, q) hmem)
  have hrm := remove_first_unique (reqs.map mkOrderItem) ⟨p.productId, q, p.price⟩
    (create_order_loop (newOrder cid) reqs s).stocks hmem' hnodup' hq'
  dsimp only at hrm
  refine ⟨_, rfl, ?_, ?_, ?_⟩
  · show (remove_first (finalize_order _ ss sm notes).items p.productId
      (create_order_loop (newOrder cid) reqs s).stocks).1 = .ok true
    rw [hitems]
    exact hrm.1
  · show (remove_first (finalize_order _ ss sm notes).items p.productId
        (create_order_loop (newOrder cid) reqs s).stocks).2.2 p.productId
      = (create_order_loop (newOrder cid) reqs s).stocks p.productId + q
    rw [hitems]
    exact hrm.2
  · show (remove_first (finalize_order _ ss sm notes).items p.productId
        (create_order_loop (newOrder cid) reqs s).stocks).2.2 p.productId
      = s p.productId
    rw [hitems, hrm.2, hloop.2 p.productId,
      requested_for_eq_of_mem reqs p q hmem hnodup]
    ring

/-- C9 counterexample: create the order `[(A, 2), (A, 3)]` from a stock of 5
(the order holds a single line `(A, 2)`), then remove product `A`: the stock
ends at 2, not at the pre-creation value 5 — the duplicate reservation is
not credited back. -/
theorem remove_round_trip_refuted :
    (created_order (OrderFactory.create_order "c" [(pA, 2), (pA, 3)]
        false none none exStocks)).map
      (fun o => (o.remove_item "A"
        (OrderFactory.create_order "c" [(pA, 2), (pA, 3)]
          false none none exStocks).stocks).stocks "A") = some 2 ∧
    exStocks "A" = 5 := ⟨rfl, rfl⟩

/-- Witness for C9 at a concrete order and stock state. -/
theorem remove_item_round_trip_witness :
    ∃ o, (OrderFactory.create_order "c" [(pA, 2), (pB, 1)] false none none exStocks2).res
        = .ok (some o) ∧
      (o.remove_item pA.productId
          (OrderFactory.create_order "c" [(pA, 2), (pB, 1)] false none none
            exStocks2).stocks).res = .ok true ∧
      (o.remove_item pA.productId
          (OrderFactory.create_order "c" [(pA, 2), (pB, 1)] false none none
            exStocks2).stocks).stocks pA.productId
        = (OrderFactory.create_order "c" [(pA, 2), (pB, 1)] false none none
            exStocks2).stocks pA.productId + 2 ∧
      (o.remove_item pA.productId
          (OrderFactory.create_order "c" [(pA, 2), (pB, 1)] false none none
            exStocks2).stocks).stocks pA.productId = exStocks2 pA.productId :=
  remove_item_round_trip "c" [(pA, 2), (pB, 1)] false none none exStocks2
    (by decide) (by decide) (by decide) pA 2 (List.mem_cons_self _ _)
